import Mathlib

/-!
A shallow embedding of the core of `streamlink-rs` (`src/lib.rs`): the URL
classification model (`UrlKind`), the `Stream` entity with its name and
status operations, and the `Streamlink` aggregate with its batch
construction and status reporting, together with theorems settling the
specification claims.

External collaborators are modelled as parameters:
* the `url` crate's `Url::parse` is an arbitrary function
  `parse : String → Option Url` (the crate's `ParseError` detail is never
  inspected by the repository code, only the fact of failure);
* the external probe process (`youtube-dl` launched by `Stream::status`)
  is an arbitrary function `probe : Url → Except IoError ExitStatus`,
  where an `IoError` models a launch failure (`std::io::Error`) and
  `ExitStatus` the exit status of a launched process.

A parsed `url::Url` is modelled by the projections the repository code
reads: `host()` (an optional `Host`, either a domain string or an IP
address), `path()` (a string), the query (never read by the code, kept to
state that classification ignores it) and `as_str()`/`Display` (the full
serialization). Rust panics are modelled by `Option`: an outcome `none`
is a panic, `some r` is a normal return with Rust result `r`.

`String::split('/')` from Rust iterates over the pieces of the path
between `/` separators, including empty pieces; it is embedded as
`splitChar` over the path's character list.
-/

set_option autoImplicit false

namespace StreamlinkRs

/-- The host of a parsed URL, as returned by `url::Url::host()`:
a registrable domain, an IPv4 address or an IPv6 address. The code only
ever matches on the domain string, so the numeric addresses are kept
abstract. -/
inductive Host where
  | Domain : String → Host
  | Ipv4 : Host
  | Ipv6 : Host
deriving DecidableEq, Repr

/-- A parsed `url::Url`, modelled by the projections the repository
reads: `host()`, `path()`, the query, and the full serialization
(`as_str()` / `Display`). -/
structure Url where
  host : Option Host
  path : String
  query : Option String
  serialization : String
deriving DecidableEq, Repr

/-- `Display` for `url::Url` prints the serialization (`as_str()`). -/
def Url.display (u : Url) : String := u.serialization

/-- The error kinds of the crate's `error_chain!` block: `NonStreamUrl`
and `UrlParse` each carry the offending URL string; `Msg` is the implicit
variant produced by `chain_err` with a string description. We track the
kind of an error value (the head of its cause chain). -/
inductive ErrorKind where
  | NonStreamUrl : String → ErrorKind
  | UrlParse : String → ErrorKind
  | Msg : String → ErrorKind
deriving DecidableEq, Repr

/-- `enum UrlKind { Youtube, Twitch, Other }`. -/
inductive UrlKind where
  | Youtube : UrlKind
  | Twitch : UrlKind
  | Other : UrlKind
deriving DecidableEq, Repr

/-- `enum StreamStatus { Online, Offline }`. -/
inductive StreamStatus where
  | Online : StreamStatus
  | Offline : StreamStatus
deriving DecidableEq, Repr

/-- `impl From<&Url> for UrlKind`: match on `url.host()`; a domain host
equal to `"youtube.com"` gives `Youtube`, equal to `"twitch.tv"` gives
`Twitch`, and every other case (another domain, an IP host, no host)
gives `Other`. (`from` is a Lean keyword, hence the name `fromUrl`.) -/
def UrlKind.fromUrl (url : Url) : UrlKind :=
  match url.host with
  | some (Host.Domain host) =>
      if host = "youtube.com" then UrlKind.Youtube
      else if host = "twitch.tv" then UrlKind.Twitch
      else UrlKind.Other
  | _ => UrlKind.Other

/-- `struct Stream { url: Url, kind: UrlKind }`. -/
structure Stream where
  url : Url
  kind : UrlKind
deriving DecidableEq, Repr

/-- `Stream::from_url`: classify the URL; bail with
`ErrorKind::NonStreamUrl(url.as_str())` when the kind is `Other`,
otherwise store the URL together with its kind. -/
def Stream.from_url (url : Url) : Except ErrorKind Stream :=
  let kind := UrlKind.fromUrl url
  match kind with
  | UrlKind.Other => Except.error (ErrorKind.NonStreamUrl url.serialization)
  | _ => Except.ok { url := url, kind := kind }

/-- `Stream::from_string`: parse the string with `Url::parse`, turning a
parse failure into `ErrorKind::UrlParse(s)` via `chain_err`, then
delegate to `Stream::from_url` (whose error is propagated unchanged by
`?`). -/
def Stream.from_string (parse : String → Option Url) (s : String) :
    Except ErrorKind Stream :=
  match parse s with
  | none => Except.error (ErrorKind.UrlParse s)
  | some url => Stream.from_url url

/-- Rust's `str::split('/')` over the character list: the pieces of `s`
between occurrences of `sep`, empty pieces included; always at least one
piece. -/
def splitChar (sep : Char) : List Char → List (List Char)
  | [] => [[]]
  | c :: rest =>
    if c = sep then
      [] :: splitChar sep rest
    else
      match splitChar sep rest with
      | [] => [[c]]
      | h :: t => (c :: h) :: t

/-- The iterator `self.url.path().split('/').skip(1)` from
`Stream::name`, as the list of remaining pieces. -/
def Url.segments (u : Url) : List (List Char) :=
  (splitChar '/' u.path.data).drop 1

/-- `Stream::name`: split the URL path on `/` and skip the piece before
the leading slash; a `Twitch` stream's name is the next piece; a
`Youtube` stream's name is the piece after `"user"` when the first piece
is `"user"`, otherwise the first piece itself; `None` when the needed
piece does not exist (and in the unreachable-for-constructed-streams
`Other` arm). -/
def Stream.name (self : Stream) : Option String :=
  let path_parts := self.url.segments
  match self.kind with
  | UrlKind.Twitch => path_parts.head?.map String.mk
  | UrlKind.Youtube =>
    match path_parts with
    | p :: rest =>
        if p = "user".data then rest.head?.map String.mk
        else some (String.mk p)
    | [] => none
  | UrlKind.Other => none

/-- A launch failure of the external probe process
(`std::io::Error` from `Command::status`). -/
structure IoError where
  msg : String
deriving DecidableEq, Repr

/-- The exit status of a launched probe process;
`success()` holds exactly for exit code zero. -/
structure ExitStatus where
  code : Int
deriving DecidableEq, Repr

/-- `ExitStatus::success()`: the exit code is zero. -/
def ExitStatus.success (s : ExitStatus) : Bool := s.code == 0

/-- `Stream::status`: launch the external probe on the stream's URL
(`youtube-dl -F <url>`, output discarded); `?` propagates a launch
failure, a launched probe maps a success exit status to `Online` and any
other to `Offline`. -/
def Stream.status (probe : Url → Except IoError ExitStatus)
    (self : Stream) : Except IoError StreamStatus :=
  match probe self.url with
  | Except.error e => Except.error e
  | Except.ok st =>
      Except.ok (if st.success then StreamStatus.Online else StreamStatus.Offline)

/-- `Display` for `Stream` writes `self.url` (its serialization). -/
def Stream.display (s : Stream) : String := s.url.display

/-- `struct Streamlink { urls: Vec<Stream> }`. -/
structure Streamlink where
  urls : List Stream
deriving DecidableEq, Repr

/-- `struct Config { stream_urls: Vec<String> }` (from `config.rs`). -/
structure Config where
  stream_urls : List String
deriving DecidableEq, Repr

/-- `Streamlink::from_urls`: map `Stream::from_url` over the URLs;
`.or_else(Err)` is the identity on results, so the `.unwrap()` panics at
the first URL whose classification is `Other` (outcome `none`); when
every URL converts, return `Ok` of the collected streams. -/
def Streamlink.from_urls (urls : List Url) :
    Option (Except ErrorKind Streamlink) :=
  match urls.mapM (fun u => (Stream.from_url u).toOption) with
  | none => none
  | some streams => some (Except.ok { urls := streams })

/-- The parsing loop of `Streamlink::from_strings`: parse the strings in
order, pushing each parsed URL, and bail with
`ErrorKind::UrlParse(string)` at the first string that fails to parse. -/
def parseUrlList (parse : String → Option Url) :
    List String → Except ErrorKind (List Url)
  | [] => Except.ok []
  | s :: rest =>
    match parse s with
    | none => Except.error (ErrorKind.UrlParse s)
    | some u => (parseUrlList parse rest).map (fun l => u :: l)

/-- `Streamlink::from_strings`: run the parsing loop, then delegate to
`Streamlink::from_urls`, whose error (were it ever produced) would be
wrapped by `chain_err` into a `Msg "failed to create from urls"` error;
a panic of `from_urls` propagates. -/
def Streamlink.from_strings (parse : String → Option Url)
    (strings : List String) : Option (Except ErrorKind Streamlink) :=
  match parseUrlList parse strings with
  | Except.error e => some (Except.error e)
  | Except.ok urls =>
    match Streamlink.from_urls urls with
    | none => none
    | some (Except.error _) =>
        some (Except.error (ErrorKind.Msg "failed to create from urls"))
    | some (Except.ok sl) => some (Except.ok sl)

/-- `Streamlink::new(config)`: delegate to
`Streamlink::from_strings(config.stream_urls)` (`Ok(..?)` is the
identity on the result). -/
def Streamlink.new (parse : String → Option Url) (config : Config) :
    Option (Except ErrorKind Streamlink) :=
  Streamlink.from_strings parse config.stream_urls

/-- `Streamlink::status`: zip the stored streams with the stream-wise
probe results, where `unwrap_or(Offline)` downgrades a probe launch
failure to `Offline`. -/
def Streamlink.status (probe : Url → Except IoError ExitStatus)
    (self : Streamlink) : List (Stream × StreamStatus) :=
  let urls_iter := self.urls
  let statuses_iter := self.urls.map (fun url =>
    match url.status probe with
    | Except.ok st => st
    | Except.error _ => StreamStatus.Offline)
  urls_iter.zip statuses_iter

/-- `Streamlink::stream_urls`: the stored streams. -/
def Streamlink.stream_urls (self : Streamlink) : List Stream := self.urls

/-! Concrete URL values, mirroring what `url::Url::parse` produces on the
example strings used by the spec and the crate's tests. -/

def twitchGogUrl : Url :=
  ⟨some (Host.Domain "twitch.tv"), "/gogcom", none, "https://twitch.tv/gogcom"⟩

def twitchRootUrl : Url :=
  ⟨some (Host.Domain "twitch.tv"), "/", none, "https://twitch.tv/"⟩

def twitchFoodUrl : Url :=
  ⟨some (Host.Domain "twitch.tv"), "/food", none, "https://twitch.tv/food"⟩

def youtubeUserGameUrl : Url :=
  ⟨some (Host.Domain "youtube.com"), "/user/markiplierGAME", none,
    "https://youtube.com/user/markiplierGAME"⟩

def youtubeDirectUrl : Url :=
  ⟨some (Host.Domain "youtube.com"), "/markiplierGAME", none,
    "https://youtube.com/markiplierGAME"⟩

def youtubeUserOnlyUrl : Url :=
  ⟨some (Host.Domain "youtube.com"), "/user", none, "https://youtube.com/user"⟩

def exampleComUrl : Url :=
  ⟨some (Host.Domain "example.com"), "/x", none, "https://example.com/x"⟩

def wwwTwitchUrl : Url :=
  ⟨some (Host.Domain "www.twitch.tv"), "/gogcom", none,
    "https://www.twitch.tv/gogcom"⟩

/-- A concrete stand-in for the external `url::Url::parse`, returning on
each of a handful of strings exactly the parse the `url` crate produces
there, and `none` elsewhere. The claim theorems hold for every parse
function; this one instantiates them in witnesses. -/
def wParse : String → Option Url := fun s =>
  if s = "https://twitch.tv/gogcom" then some twitchGogUrl
  else if s = "https://example.com/x" then some exampleComUrl
  else if s = "https://twitch.tv/food" then some twitchFoodUrl
  else if s = "https://youtube.com/user/markiplierGAME" then some youtubeUserGameUrl
  else none

/-- A concrete probe for witnesses: the probe of `twitchFoodUrl` exits
with code 0, the probe of `twitchGogUrl` fails to launch, every other
probe exits with code 1. -/
def wProbe : Url → Except IoError ExitStatus := fun u =>
  if u = twitchFoodUrl then Except.ok ⟨0⟩
  else if u = twitchGogUrl then Except.error ⟨"probe launch failure"⟩
  else Except.ok ⟨1⟩

/-- A concrete `Streamlink` for witnesses, holding two Twitch streams;
under `wProbe` the first stream's probe fails to launch and the second
probes online. -/
def wLink : Streamlink :=
  ⟨[⟨twitchGogUrl, UrlKind.Twitch⟩, ⟨twitchFoodUrl, UrlKind.Twitch⟩]⟩

/-! Helper lemmas about `splitChar`. -/

theorem splitChar_ne_nil (sep : Char) (s : List Char) : splitChar sep s ≠ [] := by
  induction s with
  | nil => simp [splitChar]
  | cons c rest ih =>
    by_cases hc : c = sep
    · simp [splitChar, hc]
    · cases hsp : splitChar sep rest with
      | nil => simp [splitChar, hc, hsp]
      | cons h t => simp [splitChar, hc, hsp]

theorem splitChar_head (sep : Char) (s : List Char) :
    (splitChar sep s).head? = some (s.takeWhile (fun c => c != sep)) := by
  induction s with
  | nil => simp [splitChar]
  | cons c rest ih =>
    by_cases hc : c = sep
    · subst hc
      simp [splitChar]
    · cases hsp : splitChar sep rest with
      | nil => exact absurd hsp (splitChar_ne_nil sep rest)
      | cons h t =>
        rw [hsp] at ih
        simp only [List.head?] at ih
        simp [splitChar, hc, hsp, List.takeWhile_cons, Option.some.injEq] at ih ⊢
        simp [ih, hc]

theorem splitChar_append (sep : Char) (a r : List Char)
    (ha : ∀ c ∈ a, c ≠ sep) :
    splitChar sep (a ++ sep :: r) = a :: splitChar sep r := by
  induction a with
  | nil => simp [splitChar]
  | cons c a2 ih =>
    have hc : c ≠ sep := ha c (by simp)
    have ih2 := ih (fun x hx => ha x (by simp [hx]))
    simp [splitChar, hc, ih2]

theorem splitChar_eq_singleton (sep : Char) (s x : List Char)
    (h : splitChar sep s = [x]) : s = x := by
  induction s generalizing x with
  | nil =>
    simp [splitChar] at h
    exact h.symm
  | cons c rest ih =>
    by_cases hc : c = sep
    · simp [splitChar, hc] at h
      exact absurd h.2 (splitChar_ne_nil sep rest)
    · cases hsp : splitChar sep rest with
      | nil => exact absurd hsp (splitChar_ne_nil sep rest)
      | cons hh t =>
        simp [splitChar, hc, hsp] at h
        obtain ⟨hx, ht⟩ := h
        subst ht
        have := ih hh hsp
        simp [this, hx]

/-- Inversion for `Stream::from_url`: success exactly for a non-`Other`
classification, and the constructed stream stores the URL and its kind. -/
theorem from_url_ok_iff (u : Url) (s : Stream) :
    Stream.from_url u = Except.ok s ↔
      (UrlKind.fromUrl u ≠ UrlKind.Other ∧ s = ⟨u, UrlKind.fromUrl u⟩) := by
  unfold Stream.from_url
  cases h : UrlKind.fromUrl u <;> simp [h, eq_comm]

/-- `Stream::from_url` never produces a `UrlParse` error. -/
theorem from_url_ne_urlparse (u : Url) (s : String) :
    Stream.from_url u ≠ Except.error (ErrorKind.UrlParse s) := by
  unfold Stream.from_url
  cases h : UrlKind.fromUrl u <;> simp [h]

/-- Claim C1: classification is total and determined only by the URL's
domain host — host exactly `youtube.com` yields `Youtube`, host exactly
`twitch.tv` yields `Twitch`, any other domain host (subdomains such as
`www.twitch.tv` included), an IP host or a missing host yields `Other`;
two URLs with the same host classify identically, so the path and the
query are never inspected. -/
theorem urlkind_classification (u : Url) :
    (u.host = some (Host.Domain "youtube.com") → UrlKind.fromUrl u = UrlKind.Youtube) ∧
    (u.host = some (Host.Domain "twitch.tv") → UrlKind.fromUrl u = UrlKind.Twitch) ∧
    (∀ d, d ≠ "youtube.com" → d ≠ "twitch.tv" →
      u.host = some (Host.Domain d) → UrlKind.fromUrl u = UrlKind.Other) ∧
    (u.host = none ∨ u.host = some Host.Ipv4 ∨ u.host = some Host.Ipv6 →
      UrlKind.fromUrl u = UrlKind.Other) ∧
    (∀ v : Url, v.host = u.host → UrlKind.fromUrl v = UrlKind.fromUrl u) := by
  refine ⟨?_, ?_, ?_, ?_, ?_⟩
  · intro h; simp [UrlKind.fromUrl, h]
  · intro h; simp [UrlKind.fromUrl, h]
  · intro d h1 h2 h; simp [UrlKind.fromUrl, h, h1, h2]
  · rintro (h | h | h) <;> simp [UrlKind.fromUrl, h]
  · intro v hv
    unfold UrlKind.fromUrl
    rw [hv]

/-- Witness for C1: `https://twitch.tv/gogcom` classifies as `Twitch`
and the subdomain `www.twitch.tv` classifies as `Other`. -/
theorem urlkind_classification_witness :
    UrlKind.fromUrl twitchGogUrl = UrlKind.Twitch ∧
    UrlKind.fromUrl wwwTwitchUrl = UrlKind.Other :=
  ⟨(urlkind_classification twitchGogUrl).2.1 rfl,
   (urlkind_classification wwwTwitchUrl).2.2.1 "www.twitch.tv"
     (by decide) (by decide) rfl⟩

/-- Claim C3: `Stream::from_url u` succeeds iff the classification of
`u` is not `Other`; on success the stream stores `u` and its computed
kind (hence every constructed stream has kind `Youtube` or `Twitch`);
on failure the error is `NonStreamUrl` carrying the URL string. -/
theorem stream_from_url_spec (u : Url) :
    (UrlKind.fromUrl u ≠ UrlKind.Other ↔ ∃ s, Stream.from_url u = Except.ok s) ∧
    (∀ s, Stream.from_url u = Except.ok s →
      s.url = u ∧ s.kind = UrlKind.fromUrl u ∧
      (s.kind = UrlKind.Youtube ∨ s.kind = UrlKind.Twitch)) ∧
    (UrlKind.fromUrl u = UrlKind.Other →
      Stream.from_url u = Except.error (ErrorKind.NonStreamUrl u.serialization)) := by
  refine ⟨⟨fun h => ?_, fun ⟨s, hs⟩ => ((from_url_ok_iff u s).mp hs).1⟩, ?_, ?_⟩
  · exact ⟨⟨u, UrlKind.fromUrl u⟩, (from_url_ok_iff u _).mpr ⟨h, rfl⟩⟩
  · intro s hs
    obtain ⟨hne, hval⟩ := (from_url_ok_iff u s).mp hs
    subst hval
    refine ⟨rfl, rfl, ?_⟩
    cases h : UrlKind.fromUrl u <;> simp_all
  · intro h
    unfold Stream.from_url
    simp [h]

/-- Witness for C3: `https://example.com/x` classifies as `Other` and
`Stream::from_url` rejects it with a `NonStreamUrl` error. -/
theorem stream_from_url_spec_witness :
    Stream.from_url exampleComUrl =
      Except.error (ErrorKind.NonStreamUrl "https://example.com/x") :=
  (stream_from_url_spec exampleComUrl).2.2 rfl

/-- Claim C4: `Stream::from_string parse s` fails with the
`UrlParse s` (Malformed) error exactly when `s` fails to parse; when `s`
parses to `u`, the result is exactly `Stream::from_url u`. -/
theorem stream_from_string_spec (parse : String → Option Url) (s : String) :
    (parse s = none ↔
      Stream.from_string parse s = Except.error (ErrorKind.UrlParse s)) ∧
    (∀ u, parse s = some u →
      Stream.from_string parse s = Stream.from_url u) := by
  cases hp : parse s with
  | none =>
    refine ⟨⟨fun _ => ?_, fun _ => rfl⟩, fun u hu => by simp [hp] at hu⟩
    simp [Stream.from_string, hp]
  | some u =>
    have hval : Stream.from_string parse s = Stream.from_url u := by
      simp [Stream.from_string, hp]
    refine ⟨⟨fun h => by simp at h, fun h => ?_⟩, fun v hv => ?_⟩
    · rw [hval] at h
      exact absurd h (from_url_ne_urlparse u s)
    · have huv : u = v := by injection hv
      rw [hval, huv]

/-- Witness for C4: with the concrete parse table, `"not a url"` fails
to parse and yields the `UrlParse` error, while
`"https://twitch.tv/gogcom"` parses and delegates to `from_url`. -/
theorem stream_from_string_spec_witness :
    Stream.from_string wParse "not a url" =
      Except.error (ErrorKind.UrlParse "not a url") ∧
    Stream.from_string wParse "https://twitch.tv/gogcom" =
      Stream.from_url twitchGogUrl :=
  ⟨(stream_from_string_spec wParse "not a url").1.mp rfl,
   (stream_from_string_spec wParse "https://twitch.tv/gogcom").2 twitchGogUrl rfl⟩

/-- Claim C2 (code-bug evidence): on a parseable URL with an unsupported
host, `Streamlink::from_strings` panics (the `.unwrap()` inside the
`from_urls` map, outcome `none`) instead of returning the promised
`NonStream` error, while an unparseable string does return the
`UrlParse` (Malformed) error as claimed. -/
theorem from_strings_nonstream_panics :
    Streamlink.from_strings wParse ["https://example.com/x"] = none ∧
    Streamlink.from_strings wParse ["not a url"] =
      some (Except.error (ErrorKind.UrlParse "not a url")) :=
  ⟨rfl, rfl⟩

/-- Claim C5: for a stream constructed by `Stream::from_url` from a URL
whose path starts with a slash (`path = '/' :: t`), `name` follows the
provider rules — a `Twitch` stream's name is the first path segment
after the leading slash (the characters of `t` up to the next slash); a
`Youtube` stream's name is that first segment when it is not literally
`user`, and the second segment when the first is `user`; `name` is
`none` only when no usable segment exists (the first segment is `user`
with nothing after it), and being a total function it never fails. -/
theorem stream_name_rules (u : Url) (s : Stream) (t : List Char)
    (h : Stream.from_url u = Except.ok s) (hp : u.path.data = '/' :: t) :
    (s.kind = UrlKind.Twitch →
      s.name = some (String.mk (t.takeWhile (fun c => c != '/')))) ∧
    (s.kind = UrlKind.Youtube → t.takeWhile (fun c => c != '/') ≠ "user".data →
      s.name = some (String.mk (t.takeWhile (fun c => c != '/')))) ∧
    (∀ r, s.kind = UrlKind.Youtube → t = "user".data ++ '/' :: r →
      s.name = some (String.mk (r.takeWhile (fun c => c != '/')))) ∧
    (s.name = none → s.kind = UrlKind.Youtube ∧ t = "user".data) := by
  obtain ⟨hne, hval⟩ := (from_url_ok_iff u s).mp h
  subst hval
  have hseg : Url.segments u = splitChar '/' t := by
    simp [Url.segments, hp, splitChar]
  refine ⟨?_, ?_, ?_, ?_⟩
  · intro hk
    have hk2 : UrlKind.fromUrl u = UrlKind.Twitch := hk
    simp [Stream.name, hk2, hseg, splitChar_head]
  · intro hk hnu
    have hk2 : UrlKind.fromUrl u = UrlKind.Youtube := hk
    cases hsp : splitChar '/' t with
    | nil => exact absurd hsp (splitChar_ne_nil '/' t)
    | cons p rest =>
      have hpt : p = t.takeWhile (fun c => c != '/') := by
        have := splitChar_head '/' t
        rw [hsp] at this
        simpa using this
      subst hpt
      simp [Stream.name, hk2, hseg, hsp, hnu]
  · intro r hk ht
    subst ht
    have hk2 : UrlKind.fromUrl u = UrlKind.Youtube := hk
    have hsp : splitChar '/' ("user".data ++ '/' :: r) =
        "user".data :: splitChar '/' r :=
      splitChar_append '/' "user".data r (by decide)
    simp only [Stream.name, hk2, hseg, hsp]
    simp [splitChar_head]
  · intro hn
    cases hk : UrlKind.fromUrl u with
    | Other => exact absurd hk hne
    | Twitch =>
      exfalso
      cases hsp : splitChar '/' t with
      | nil => exact absurd hsp (splitChar_ne_nil '/' t)
      | cons p rest => simp [Stream.name, hseg, hsp, hk] at hn
    | Youtube =>
      refine ⟨rfl, ?_⟩
      cases hsp : splitChar '/' t with
      | nil => exact absurd hsp (splitChar_ne_nil '/' t)
      | cons p rest =>
        simp [Stream.name, hseg, hsp, hk] at hn
        by_cases hu : p = "user".data
        · rw [if_pos hu] at hn
          cases rest with
          | cons q rest2 => simp at hn
          | nil =>
            subst hu
            exact splitChar_eq_singleton '/' t "user".data hsp
        · rw [if_neg hu] at hn
          simp at hn

/-- Witness for C5: `https://twitch.tv/gogcom` has name `gogcom` and
`https://youtube.com/user/markiplierGAME` has name `markiplierGAME`. -/
theorem stream_name_rules_witness :
    (Stream.mk twitchGogUrl UrlKind.Twitch).name = some "gogcom" ∧
    (Stream.mk youtubeUserGameUrl UrlKind.Youtube).name = some "markiplierGAME" := by
  constructor
  · have h := (stream_name_rules twitchGogUrl ⟨twitchGogUrl, UrlKind.Twitch⟩
      "gogcom".data rfl rfl).1 rfl
    exact h.trans (by decide)
  · have h := (stream_name_rules youtubeUserGameUrl
      ⟨youtubeUserGameUrl, UrlKind.Youtube⟩
      ("user".data ++ '/' :: "markiplierGAME".data) rfl rfl).2.2.1
      "markiplierGAME".data rfl rfl
    exact h.trans (by decide)

/-- Claim C10 (counterexample): the `None` branches of `Stream::name`
are reachable for a constructed stream — `https://youtube.com/user`
(host `youtube.com`, path `/user`) is accepted by `Stream::from_url`,
yet its first path segment is literally `user` with no second segment,
so `name` returns `none`. -/
theorem youtube_user_name_none :
    Stream.from_url youtubeUserOnlyUrl =
      Except.ok ⟨youtubeUserOnlyUrl, UrlKind.Youtube⟩ ∧
    (Stream.mk youtubeUserOnlyUrl UrlKind.Youtube).name = none :=
  ⟨rfl, rfl⟩

/-- Claim C10 (amended): for a stream constructed by `Stream::from_url`
from a URL whose path starts with a slash, `name` returns `some` in
every case except a `Youtube` stream whose whole remaining path is
literally `user` (no second segment); the path `"/"` gives
`some ""` rather than `none`. -/
theorem stream_name_some_on_slash_path (u : Url) (s : Stream) (t : List Char)
    (h : Stream.from_url u = Except.ok s) (hp : u.path.data = '/' :: t)
    (hx : ¬(s.kind = UrlKind.Youtube ∧ t = "user".data)) :
    s.name.isSome = true ∧ (t = [] → s.name = some "") := by
  obtain ⟨hne, hval⟩ := (from_url_ok_iff u s).mp h
  subst hval
  have hseg : Url.segments u = splitChar '/' t := by
    simp [Url.segments, hp, splitChar]
  cases hk : UrlKind.fromUrl u with
  | Other => exact absurd hk hne
  | Twitch =>
    constructor
    · cases hsp : splitChar '/' t with
      | nil => exact absurd hsp (splitChar_ne_nil '/' t)
      | cons p rest => simp [Stream.name, hseg, hsp, hk]
    · intro ht
      subst ht
      simp [Stream.name, hseg, hk, splitChar]
  | Youtube =>
    have hxt : t ≠ "user".data := fun hteq => hx ⟨hk, hteq⟩
    constructor
    · cases hsp : splitChar '/' t with
      | nil => exact absurd hsp (splitChar_ne_nil '/' t)
      | cons p rest =>
        simp [Stream.name, hseg, hsp, hk]
        by_cases hu : p = "user".data
        · rw [if_pos hu]
          cases hrest : rest with
          | cons q rest2 => simp
          | nil =>
            exfalso
            apply hxt
            rw [hrest] at hsp
            rw [hu] at hsp
            exact splitChar_eq_singleton _ t _ hsp
        · rw [if_neg hu]
          simp
    · intro ht
      subst ht
      simp [Stream.name, hseg, hk, splitChar]

/-- Witness for C10 (amended): `https://twitch.tv/` (path `"/"`) gives
name `some ""`. -/
theorem stream_name_some_on_slash_path_witness :
    (Stream.mk twitchRootUrl UrlKind.Twitch).name = some "" := by
  have h := stream_name_some_on_slash_path twitchRootUrl
    ⟨twitchRootUrl, UrlKind.Twitch⟩ [] rfl rfl (by decide)
  exact h.2 rfl

/-- Claim C6: `Stream::status` maps a successfully launched probe to
`Ok` — exit code zero to `Online`, any other exit status to `Offline` —
and returns an error exactly when the probe launch itself failed. -/
theorem stream_status_spec (probe : Url → Except IoError ExitStatus)
    (s : Stream) :
    (∀ st, probe s.url = Except.ok st →
      s.status probe =
        Except.ok (if st.success then StreamStatus.Online
                   else StreamStatus.Offline)) ∧
    (∀ e, s.status probe = Except.error e ↔ probe s.url = Except.error e) := by
  unfold Stream.status
  cases hp : probe s.url with
  | error e0 => simp
  | ok st0 =>
    constructor
    · intro st hst
      injection hst with hst
      rw [hst]
    · intro e
      simp

/-- Witness for C6: under the concrete probe, `https://twitch.tv/food`
exits with code 0 and its status is `Ok(Online)`. -/
theorem stream_status_spec_witness :
    (Stream.mk twitchFoodUrl UrlKind.Twitch).status wProbe =
      Except.ok StreamStatus.Online := by
  have h := (stream_status_spec wProbe ⟨twitchFoodUrl, UrlKind.Twitch⟩).1
    ⟨0⟩ rfl
  exact h

/-! Helper lemmas about zipping a list with a map of itself
(the shape of `Streamlink::status`). -/

theorem zip_map_self_length {α β : Type} (f : α → β) (l : List α) :
    (l.zip (l.map f)).length = l.length := by
  simp

theorem zip_map_self_map_fst {α β : Type} (f : α → β) (l : List α) :
    (l.zip (l.map f)).map Prod.fst = l := by
  induction l with
  | nil => simp
  | cons a l2 ih => simp [ih]

theorem zip_map_self_getElem {α β : Type} (f : α → β) (l : List α) (i : Nat)
    (hi : i < l.length) :
    (l.zip (l.map f))[i]? = some (l[i], f l[i]) := by
  induction l generalizing i with
  | nil => simp at hi
  | cons a l2 ih =>
    cases i with
    | zero => simp
    | succ n =>
      have hn : n < l2.length := by simpa using hi
      simp [ih n hn]

/-- Claim C7: `Streamlink::status` never propagates a probe error — when
the probe launch fails for the `i`-th stream, that pair's status is
downgraded to `Offline`, while the sequence still has a pair for every
stored stream (in order). -/
theorem streamlink_status_probe_failure (probe : Url → Except IoError ExitStatus)
    (self : Streamlink) (i : Nat) (e : IoError)
    (hi : i < self.urls.length)
    (hfail : probe (self.urls[i].url) = Except.error e) :
    (self.status probe).length = self.urls.length ∧
    (self.status probe).map Prod.fst = self.urls ∧
    (self.status probe)[i]? = some (self.urls[i], StreamStatus.Offline) := by
  refine ⟨zip_map_self_length _ _, zip_map_self_map_fst _ _, ?_⟩
  show (self.urls.zip (self.urls.map _))[i]? = _
  rw [zip_map_self_getElem _ self.urls i hi]
  have hst : (self.urls[i]).status probe = Except.error e := by
    unfold Stream.status
    rw [hfail]
  simp [hst]

/-- Witness for C7: in the two-stream `wLink`, the first stream's probe
fails to launch under `wProbe`, yet `status` reports both streams and
the first pair is `Offline`. -/
theorem streamlink_status_probe_failure_witness :
    (wLink.status wProbe).length = 2 ∧
    (wLink.status wProbe)[0]? =
      some (⟨twitchGogUrl, UrlKind.Twitch⟩, StreamStatus.Offline) := by
  have h := streamlink_status_probe_failure wProbe wLink 0
    ⟨"probe launch failure"⟩ (by decide) rfl
  exact ⟨h.1, h.2.2⟩

/-- Claim C8: each invocation of `Streamlink::status` yields exactly one
pair per stored stream, whose first components are the stored streams in
their original order, and `stream_urls` returns that same stored list. -/
theorem streamlink_status_order (probe : Url → Except IoError ExitStatus)
    (self : Streamlink) :
    (self.status probe).length = self.stream_urls.length ∧
    (self.status probe).map Prod.fst = self.stream_urls ∧
    self.stream_urls = self.urls :=
  ⟨zip_map_self_length _ _, zip_map_self_map_fst _ _, rfl⟩

/-- Claim C9: a stream built by `Stream::from_string` displays the
serialization of the URL it parsed to; when that serialization is the
input string itself (the parser round-trips on it), the display equals
the exact string the stream was constructed from. -/
theorem stream_display_round_trip (parse : String → Option Url) (s : String)
    (u : Url) (st : Stream) (hp : parse s = some u)
    (hok : Stream.from_string parse s = Except.ok st) :
    st.display = u.serialization ∧ (u.serialization = s → st.display = s) := by
  have hfu : Stream.from_url u = Except.ok st := by
    rw [Stream.from_string, hp] at hok
    exact hok
  obtain ⟨hne, hval⟩ := (from_url_ok_iff u st).mp hfu
  subst hval
  exact ⟨rfl, fun hrt => hrt⟩

/-- Witness for C9: the stream parsed from `https://twitch.tv/gogcom`
displays exactly that string. -/
theorem stream_display_round_trip_witness :
    (Stream.mk twitchGogUrl UrlKind.Twitch).display =
      "https://twitch.tv/gogcom" := by
  have h := stream_display_round_trip wParse "https://twitch.tv/gogcom"
    twitchGogUrl ⟨twitchGogUrl, UrlKind.Twitch⟩ rfl rfl
  exact h.2 rfl

end StreamlinkRs
